import Mathlib

/-!
Verification of the frame-loop behaviour of the `gameengine` repository.

The repository consists of thin Python glue around an external native engine;
the only recurring logic is the hand-written frame loop that appears in
`src/examples/basic_demo.py`, `src/examples/python/platformer_game.py` and
`src/build/bin/nexus_api.py` (`GameApplication.run`).  This file gives a
shallow embedding of those loops and of the platformer's `Player` /
`PlatformerGame` update code, and proves or refutes the specification's
claims about them.

Modelling conventions:
* Times (clock readings, delta times, accumulated time) are exact rationals,
  matching the specification's "real, seconds".  Python-float rounding is not
  modelled; every claim here is about control flow and exact arithmetic.
* A run of a loop is driven by the list of monotonic-clock readings the calls
  to `time.time()` would return, consumed one per iteration; the reading taken
  before the loop (`last_time = time.time()` in `basic_demo.py`,
  `clock = time.time()` in `platformer_game.py`) is the `prev` argument.
* Engine state queried at iteration boundaries (`engine.is_running()`,
  `self.running`) is modelled as a Boolean function of the boundary index.
-/

namespace GameEngine

/-- The per-iteration `delta_time` values of the demo/game loops: each
iteration computes `delta_time = current_time - last_time` from the next
clock reading and the previous one (`basic_demo.py` lines 47-49,
`platformer_game.py` lines 150-152).  The source applies no clamping. -/
def deltas (prev : ℚ) : List ℚ → List ℚ
  | [] => []
  | r :: rs => (r - prev) :: deltas r rs

/-- The accumulated elapsed time of the loops: `demo_time += delta_time`
(`basic_demo.py` line 51) and `game_time += delta_time`
(`platformer_game.py` line 81 via `PlatformerGame.update`), starting from
accumulator `acc` and previous reading `prev`, folded over the readings. -/
def accumulate (prev acc : ℚ) : List ℚ → ℚ
  | [] => acc
  | r :: rs => accumulate r (acc + (r - prev)) rs

/-- The accumulated time after `k` iterations of a run over readings `rs`:
the initial accumulator plus the sum of the first `k` delta times. -/
def accAfter (prev acc : ℚ) (rs : List ℚ) (k : ℕ) : ℚ :=
  acc + ((deltas prev rs).take k).sum

lemma accumulate_eq_sum (prev acc : ℚ) (rs : List ℚ) :
    accumulate prev acc rs = acc + (deltas prev rs).sum := by
  induction rs generalizing prev acc with
  | nil => simp [accumulate, deltas]
  | cons r rs ih =>
      simp only [accumulate, deltas, List.sum_cons, ih]
      ring

lemma deltas_take (prev : ℚ) (rs : List ℚ) (n : ℕ) :
    deltas prev (rs.take n) = (deltas prev rs).take n := by
  induction rs generalizing prev n with
  | nil => simp [deltas]
  | cons r rs ih =>
      cases n with
      | zero => simp [deltas]
      | succ n => simp [deltas, ih]

/-- C1: the accumulated elapsed time (`demo_time` / `game_time`) of a run is
the initial accumulator plus the sum of the per-iteration `delta_time`
values, and likewise after any number `n` of iterations (a run over the
first `n` readings): no drift, no double counting. -/
theorem c1_no_drift (prev acc : ℚ) (rs : List ℚ) (n : ℕ) :
    accumulate prev acc rs = acc + (deltas prev rs).sum ∧
    accumulate prev acc (rs.take n) = acc + ((deltas prev rs).take n).sum := by
  refine ⟨accumulate_eq_sum prev acc rs, ?_⟩
  rw [accumulate_eq_sum, deltas_take]

/-- C8 counterexample: on the run whose pre-loop clock reading is `0` and
whose first in-loop reading is `1/10`, the first iteration's `delta_time`
is `1/10`, not `0`: the claim that the first delta is always exactly `0`
fails on the code. -/
theorem c8_first_delta_counterexample :
    deltas 0 [1/10] = [1/10] ∧ ((1 : ℚ)/10 ≠ 0) := by
  constructor
  · simp [deltas]
  · norm_num

/-- C8 amended: the first iteration's `delta_time` is the difference between
the first in-loop clock reading and the reading taken when the clock
variable was initialised before the loop; it is `0` exactly when those two
readings coincide (the source takes two separate readings and subtracts,
with no special case forcing the first delta to `0`). -/
theorem c8_first_delta_value (prev r : ℚ) (rs : List ℚ) :
    (deltas prev (r :: rs)).head? = some (r - prev) ∧
    (r - prev = 0 ↔ r = prev) := by
  exact ⟨rfl, sub_eq_zero⟩

/-- C4 counterexample: the code never clamps `delta_time`; on the (wall-clock,
non-monotonic) reading sequence `[1, 1/2]` from initial reading `0`, the
second delta is `-1/2 < 0` and the accumulated time decreases from `1`
after one iteration to `1/2` after two. -/
theorem c4_negative_delta_counterexample :
    deltas 0 [1, 1/2] = [1, -(1/2)] ∧ ((-(1/2) : ℚ) < 0) ∧
    accumulate 0 0 [1, 1/2] < accumulate 0 0 [1] := by
  refine ⟨?_, by norm_num, ?_⟩
  · simp [deltas]; norm_num
  · simp [accumulate]; norm_num

/-- C4 amended: when the clock readings are non-decreasing (the monotonic
clock the specification's glossary assumes), every computed `delta_time` is
non-negative and the accumulated time is non-decreasing from each iteration
to the next; the non-negativity comes from clock monotonicity, not from any
clamping in the code. -/
theorem c4_monotone_when_clock_monotone (prev acc : ℚ) (rs : List ℚ)
    (h : List.Chain (· ≤ ·) prev rs) :
    (∀ d ∈ deltas prev rs, 0 ≤ d) ∧
    ∀ n, accumulate prev acc (rs.take n) ≤ accumulate prev acc (rs.take (n + 1)) := by
  constructor
  · induction rs generalizing prev with
    | nil => simp [deltas]
    | cons r rs ih =>
        rcases List.chain_cons.mp h with ⟨hpr, hchain⟩
        intro d hd
        rcases List.mem_cons.mp hd with hd | hd
        · subst hd; linarith
        · exact ih r hchain d hd
  · intro n
    rw [accumulate_eq_sum, accumulate_eq_sum, deltas_take, deltas_take,
      List.take_succ]
    have hnonneg : ∀ d ∈ deltas prev rs, 0 ≤ d := by
      induction rs generalizing prev with
      | nil => simp [deltas]
      | cons r rs ih =>
          rcases List.chain_cons.mp h with ⟨hpr, hchain⟩
          intro d hd
          rcases List.mem_cons.mp hd with hd | hd
          · subst hd; linarith
          · exact ih r hchain d hd
    have : 0 ≤ ((deltas prev rs)[n]?).toList.sum := by
      cases hx : (deltas prev rs)[n]? with
      | none => simp
      | some d =>
          have : d ∈ deltas prev rs := List.getElem?_mem hx
          simpa using hnonneg d this
    rw [List.sum_append]
    linarith

/-- C4 witness: a concrete monotone run with readings `[1/10, 2/10]`: the
accumulated time does not decrease across the first iteration boundary. -/
theorem c4_monotone_witness :
    accumulate 0 0 ([(1:ℚ)/10, 2/10].take 1) ≤
      accumulate 0 0 ([(1:ℚ)/10, 2/10].take (1 + 1)) :=
  (c4_monotone_when_clock_monotone 0 0 [1/10, 2/10]
    (by norm_num [List.chain_cons])).2 1

/-- Result of a `basic_demo.py` run: how many loop iterations executed, the
final `demo_time`, and whether the loop exited through its completion check
(`false` means the supplied readings ran out first, a model artifact). -/
structure DemoResult where
  iters : ℕ
  acc : ℚ
  completed : Bool
  deriving DecidableEq

/-- The `basic_demo.py` loop (lines 46-71) driven by a list of clock
readings: each iteration takes the next reading, computes
`delta_time = current_time - last_time`, accumulates `demo_time`, and exits
when `demo_time > maxD` (the source's `if demo_time > 30.0: break`, with
the constant generalized).  The exit check is strict `>`, and it runs after
the accumulation, inside the same iteration. -/
def demoRun (maxD : ℚ) (prev acc : ℚ) : List ℚ → DemoResult
  | [] => ⟨0, acc, false⟩
  | r :: rs =>
    let acc' := acc + (r - prev)
    if maxD < acc' then ⟨1, acc', true⟩
    else
      let sub := demoRun maxD r acc' rs
      ⟨sub.iters + 1, sub.acc, sub.completed⟩

lemma accAfter_succ_cons (prev acc r : ℚ) (rs : List ℚ) (k : ℕ) :
    accAfter prev acc (r :: rs) (k + 1) = accAfter r (acc + (r - prev)) rs k := by
  simp [accAfter, deltas, List.sum_cons]
  ring

lemma accAfter_one_cons (prev acc r : ℚ) (rs : List ℚ) :
    accAfter prev acc (r :: rs) 1 = acc + (r - prev) := by
  simp [accAfter, deltas]

lemma demoRun_first_exceed (maxD : ℚ) (rs : List ℚ) :
    ∀ prev acc : ℚ, (demoRun maxD prev acc rs).completed = true →
      maxD < accAfter prev acc rs (demoRun maxD prev acc rs).iters ∧
      (∀ k, 0 < k → k < (demoRun maxD prev acc rs).iters →
        accAfter prev acc rs k ≤ maxD) ∧
      (demoRun maxD prev acc rs).acc =
        accAfter prev acc rs (demoRun maxD prev acc rs).iters := by
  induction rs with
  | nil => intro prev acc h; simp [demoRun] at h
  | cons r rs ih =>
      intro prev acc h
      by_cases hlt : maxD < acc + (r - prev)
      · have hrun : demoRun maxD prev acc (r :: rs) = ⟨1, acc + (r - prev), true⟩ := by
          simp [demoRun, hlt]
        rw [hrun]
        dsimp only
        refine ⟨?_, ?_, ?_⟩
        · rw [accAfter_one_cons]; exact hlt
        · intro k hk hk1; omega
        · rw [accAfter_one_cons]
      · have hrun : demoRun maxD prev acc (r :: rs) =
            ⟨(demoRun maxD r (acc + (r - prev)) rs).iters + 1,
             (demoRun maxD r (acc + (r - prev)) rs).acc,
             (demoRun maxD r (acc + (r - prev)) rs).completed⟩ := by
          simp [demoRun, hlt]
        rw [hrun] at h ⊢
        simp only at h ⊢
        obtain ⟨h1, h2, h3⟩ := ih r (acc + (r - prev)) h
        refine ⟨?_, ?_, ?_⟩
        · rw [accAfter_succ_cons]; exact h1
        · intro k hk hklt
          obtain ⟨j, rfl⟩ : ∃ j, k = j + 1 := ⟨k - 1, by omega⟩
          rw [accAfter_succ_cons]
          rcases Nat.eq_zero_or_pos j with rfl | hj
          · simpa [accAfter, deltas] using not_lt.mp hlt
          · exact h2 j hj (by omega)
        · rw [accAfter_succ_cons]; exact h3

/-- C3 counterexample: with `max_duration = 1/4` and readings `[1/4, 1/2]`
from initial reading `0`, the accumulated time after iteration 1 is exactly
`1/4 >= 1/4`, so the claim as stated says the loop terminates at iteration
1; the code's strict `demo_time > 30.0`-style check instead runs a second
iteration. -/
theorem c3_boundary_counterexample :
    demoRun (1/4) 0 0 [1/4, 1/2] = ⟨2, 1/2, true⟩ ∧
    accAfter 0 0 [1/4, 1/2] 1 = 1/4 := by
  constructor
  · simp [demoRun, DemoResult.mk.injEq]; norm_num
  · simp [accAfter, deltas]

/-- C3 amended: when the loop exits through its completion check, it does so
on the first iteration whose accumulated time strictly exceeds
`max_duration` (every earlier iteration's accumulated time is `<= maxD`),
the final accumulated time is frozen at that iteration (no further
iteration executes), and the spec's concrete scenario (readings
`[0.0, 0.1, 0.2, 0.3]`, i.e. initial reading `0` and in-loop readings
`[1/10, 2/10, 3/10]`, with `max_duration = 1/4`) runs exactly 3 iterations
and completes. -/
theorem c3_max_duration_strict (maxD prev acc : ℚ) (rs : List ℚ)
    (h : (demoRun maxD prev acc rs).completed = true) :
    (maxD < accAfter prev acc rs (demoRun maxD prev acc rs).iters ∧
      (∀ k, 0 < k → k < (demoRun maxD prev acc rs).iters →
        accAfter prev acc rs k ≤ maxD) ∧
      (demoRun maxD prev acc rs).acc =
        accAfter prev acc rs (demoRun maxD prev acc rs).iters) ∧
    demoRun (1/4) 0 0 [1/10, 2/10, 3/10] = ⟨3, 3/10, true⟩ := by
  refine ⟨demoRun_first_exceed maxD rs prev acc h, ?_⟩
  simp [demoRun, DemoResult.mk.injEq]
  norm_num

/-- C3 witness: the spec's concrete scenario itself satisfies the
hypothesis (its run completes). -/
theorem c3_max_duration_strict_witness :
    demoRun (1/4) 0 0 [1/10, 2/10, 3/10] = ⟨3, 3/10, true⟩ :=
  (c3_max_duration_strict (1/4) 0 0 [1/10, 2/10, 3/10] (by
    simp [demoRun]; norm_num)).2

/-- Exit reasons of a loop run, the spec's
`ExitReason = Completed | StoppedExternally | Failed` classification of
which check ended the loop: `Completed` when `engine.is_running()` became
false, `StoppedExternally` when `self.running` was cleared by `shutdown()`
while the engine was still running, `Failed` when a callback raised. -/
inductive ExitReason
  | Completed
  | StoppedExternally
  | Failed
  deriving DecidableEq

/-- Observable callback invocations of `GameApplication.run`: the update
phase of iteration `i` (`scene.update` + `self.update`, lines 97-101 of
`nexus_api.py`) and the render phase (`scene.render` + `self.render`,
lines 104-109). -/
inductive Ev
  | update (i : ℕ)
  | render (i : ℕ)
  deriving DecidableEq

/-- The iteration an event belongs to. -/
def Ev.iter : Ev → ℕ
  | .update i => i
  | .render i => i

/-- The main loop of `GameApplication.run` (`nexus_api.py` lines 93-112):
`while self.engine.is_running() and self.running:` runs the update phase,
then the render phase, then sleeps.  `er i` / `ar i` give the two loop
conditions at the boundary check before iteration `i`; `uo i` / `ro i`
say whether iteration `i`'s update / render phase returns normally
(`false` = the callback raises, which the source does not catch, aborting
the loop at once).  Returns the trace of callback invocations and the exit
classification (`none` when the fuel bound ran out, a model artifact). -/
def gameRun (er ar uo ro : ℕ → Bool) : ℕ → ℕ → List Ev × Option ExitReason
  | 0, _ => ([], none)
  | fuel + 1, i =>
    if er i && ar i then
      if uo i then
        if ro i then
          (Ev.update i :: Ev.render i :: (gameRun er ar uo ro fuel (i + 1)).1,
           (gameRun er ar uo ro fuel (i + 1)).2)
        else ([Ev.update i, Ev.render i], some .Failed)
      else ([Ev.update i], some .Failed)
    else
      ([], some (if er i then .StoppedExternally else .Completed))

/-- C2: in every run of the loop, any render invocation for iteration `j`
is strictly preceded in the trace by the update invocation for iteration
`j`: callbacks never observe a render for a time step that has not been
updated. -/
theorem c2_update_before_render (er ar uo ro : ℕ → Bool) :
    ∀ (fuel i : ℕ) (l1 l2 : List Ev) (j : ℕ),
      (gameRun er ar uo ro fuel i).1 = l1 ++ Ev.render j :: l2 →
      Ev.update j ∈ l1 := by
  intro fuel
  induction fuel with
  | zero =>
      intro i l1 l2 j h
      simp [gameRun] at h
  | succ fuel ih =>
      intro i l1 l2 j h
      by_cases hc : (er i && ar i) = true
      · by_cases hu : uo i = true
        · by_cases hr : ro i = true
          · simp only [gameRun, hc, hu, hr, if_true] at h
            match l1, h with
            | [], h => simp at h
            | [a], h =>
                simp only [List.cons_append, List.nil_append,
                  List.cons.injEq] at h
                obtain ⟨ha, hb, -⟩ := h
                cases hb
                simp [ha]
            | a :: b :: l1', h =>
                simp only [List.cons_append, List.cons.injEq] at h
                obtain ⟨ha, hb, htr⟩ := h
                have := ih (i + 1) l1' l2 j htr
                simp [this]
          · have hr' : ro i = false := by simpa using hr
            simp only [gameRun, hc, hu, hr', if_true, Bool.false_eq_true,
              if_false] at h
            match l1, h with
            | [], h => simp at h
            | [a], h =>
                simp only [List.cons_append, List.nil_append,
                  List.cons.injEq] at h
                obtain ⟨ha, hb, -⟩ := h
                cases hb
                simp [ha]
            | a :: b :: l1', h =>
                simp only [List.cons_append, List.cons.injEq] at h
                obtain ⟨-, -, htr⟩ := h
                simp at htr
        · have hu' : uo i = false := by simpa using hu
          simp only [gameRun, hc, hu', if_true, Bool.false_eq_true,
            if_false] at h
          match l1, h with
          | [], h => simp at h
          | a :: l1', h =>
              simp only [List.cons_append, List.cons.injEq] at h
              obtain ⟨-, htr⟩ := h
              simp at htr
      · simp only [gameRun, hc, Bool.false_eq_true, if_false] at h
        simp at h

/-- C2 witness: a one-iteration run with everything healthy; its render is
preceded by its update. -/
theorem c2_update_before_render_witness :
    Ev.update 0 ∈ [Ev.update 0] :=
  c2_update_before_render (fun _ => true) (fun _ => true) (fun _ => true)
    (fun _ => true) 1 0 [Ev.update 0] [] 0 rfl

lemma gameRun_stopped (er ar uo ro : ℕ → Bool) (k : ℕ) :
    ∀ fuel i, i ≤ k →
      (∀ j, i ≤ j → j ≤ k → (er j && ar j && uo j && ro j) = true) →
      ar (k + 1) = false → er (k + 1) = true →
      k + 1 - i < fuel →
      (gameRun er ar uo ro fuel i).2 = some .StoppedExternally ∧
      Ev.update k ∈ (gameRun er ar uo ro fuel i).1 ∧
      Ev.render k ∈ (gameRun er ar uo ro fuel i).1 ∧
      ∀ e ∈ (gameRun er ar uo ro fuel i).1, i ≤ e.iter ∧ e.iter ≤ k := by
  intro fuel
  induction fuel with
  | zero => intro i hik h hstop heng hfuel; omega
  | succ fuel ih =>
      intro i hik h hstop heng hfuel
      have hall := h i le_rfl hik
      simp only [Bool.and_eq_true] at hall
      obtain ⟨⟨⟨her, har⟩, huo⟩, hro⟩ := hall
      have hc : (er i && ar i) = true := by simp [her, har]
      rcases Nat.lt_or_ge i k with hlt | hge
      · have hres := ih (i + 1) (by omega)
          (fun j hj1 hj2 => h j (by omega) hj2) hstop heng (by omega)
        simp only [gameRun, hc, huo, hro, if_true]
        refine ⟨hres.1, ?_, ?_, ?_⟩
        · exact List.mem_cons_of_mem _ (List.mem_cons_of_mem _ hres.2.1)
        · exact List.mem_cons_of_mem _ (List.mem_cons_of_mem _ hres.2.2.1)
        · intro e he
          rcases List.mem_cons.mp he with rfl | he
          · simp [Ev.iter]; omega
          rcases List.mem_cons.mp he with rfl | he
          · simp [Ev.iter]; omega
          · have := hres.2.2.2 e he
            exact ⟨by omega, this.2⟩
      · have hik' : i = k := le_antisymm hik hge
        subst hik'
        cases fuel with
        | zero => omega
        | succ f =>
            have hrun : gameRun er ar uo ro (f + 1 + 1) i =
                ([Ev.update i, Ev.render i], some .StoppedExternally) := by
              simp [gameRun, hc, huo, hro, hstop, heng]
            rw [hrun]
            refine ⟨rfl, by simp, by simp, ?_⟩
            intro e he
            rcases List.mem_cons.mp he with rfl | he
            · simp [Ev.iter]
            rcases List.mem_cons.mp he with rfl | he
            · simp [Ev.iter]
            · simp at he

/-- C7: if every boundary check up to and including iteration `k` passes
and the external stop request lands during iteration `k` (so `self.running`
is first seen false at the check before iteration `k+1`, the engine still
running), the loop finishes iteration `k`'s update/render pair, performs no
callback of any iteration beyond `k`, and exits as `StoppedExternally`. -/
theorem c7_stop_completes_iteration (er ar uo ro : ℕ → Bool) (k fuel : ℕ)
    (h : ∀ j, j ≤ k → (er j && ar j && uo j && ro j) = true)
    (hstop : ar (k + 1) = false) (heng : er (k + 1) = true)
    (hfuel : k + 1 < fuel) :
    (gameRun er ar uo ro fuel 0).2 = some .StoppedExternally ∧
    Ev.update k ∈ (gameRun er ar uo ro fuel 0).1 ∧
    Ev.render k ∈ (gameRun er ar uo ro fuel 0).1 ∧
    ∀ e ∈ (gameRun er ar uo ro fuel 0).1, e.iter ≤ k := by
  obtain ⟨h1, h2, h3, h4⟩ := gameRun_stopped er ar uo ro k fuel 0
    (Nat.zero_le k) (fun j _ hj => h j hj) hstop heng (by omega)
  exact ⟨h1, h2, h3, fun e he => (h4 e he).2⟩

/-- C7 witness: a stop requested during iteration 0 of a two-fuel run. -/
theorem c7_stop_completes_iteration_witness :
    (gameRun (fun _ => true) (fun j => decide (j = 0)) (fun _ => true)
      (fun _ => true) 2 0).2 = some ExitReason.StoppedExternally ∧
    Ev.update 0 ∈ (gameRun (fun _ => true) (fun j => decide (j = 0))
      (fun _ => true) (fun _ => true) 2 0).1 ∧
    Ev.render 0 ∈ (gameRun (fun _ => true) (fun j => decide (j = 0))
      (fun _ => true) (fun _ => true) 2 0).1 :=
  have h := c7_stop_completes_iteration (fun _ => true)
    (fun j => decide (j = 0)) (fun _ => true) (fun _ => true) 0 2
    (fun j hj => by
      have hj0 : j = 0 := Nat.le_zero.mp hj
      subst hj0; rfl)
    rfl rfl (by omega)
  ⟨h.1, h.2.1, h.2.2.1⟩

lemma gameRun_failed (er ar uo ro : ℕ → Bool) (k : ℕ) :
    ∀ fuel i, i ≤ k →
      (∀ j, i ≤ j → j < k → (er j && ar j && uo j && ro j) = true) →
      (er k && ar k) = true →
      (uo k = false ∨ (uo k = true ∧ ro k = false)) →
      k - i < fuel →
      (gameRun er ar uo ro fuel i).2 = some .Failed ∧
      (gameRun er ar uo ro fuel i).1.count (Ev.update k) = 1 ∧
      ∀ e ∈ (gameRun er ar uo ro fuel i).1, i ≤ e.iter ∧ e.iter ≤ k := by
  intro fuel
  induction fuel with
  | zero => intro i hik h hck hfail hfuel; omega
  | succ fuel ih =>
      intro i hik h hck hfail hfuel
      rcases Nat.lt_or_ge i k with hlt | hge
      · have hall := h i le_rfl hlt
        simp only [Bool.and_eq_true] at hall
        obtain ⟨⟨⟨her, har⟩, huo⟩, hro⟩ := hall
        have hc : (er i && ar i) = true := by simp [her, har]
        have hres := ih (i + 1) (by omega)
          (fun j hj1 hj2 => h j (by omega) hj2) hck hfail (by omega)
        simp only [gameRun, hc, huo, hro, if_true]
        have hik' : i ≠ k := by omega
        refine ⟨hres.1, ?_, ?_⟩
        · rw [List.count_cons, List.count_cons, hres.2.1]
          simp [hik']
        · intro e he
          rcases List.mem_cons.mp he with rfl | he
          · simp [Ev.iter]; omega
          rcases List.mem_cons.mp he with rfl | he
          · simp [Ev.iter]; omega
          · have := hres.2.2 e he
            exact ⟨by omega, this.2⟩
      · have hik' : i = k := le_antisymm hik hge
        subst hik'
        rcases hfail with huo | ⟨huo, hro⟩
        · have hrun : gameRun er ar uo ro (fuel + 1) i =
              ([Ev.update i], some .Failed) := by
            simp [gameRun, hck, huo]
          rw [hrun]
          refine ⟨rfl, by simp, ?_⟩
          intro e he
          rcases List.mem_cons.mp he with rfl | he
          · simp [Ev.iter]
          · simp at he
        · have hrun : gameRun er ar uo ro (fuel + 1) i =
              ([Ev.update i, Ev.render i], some .Failed) := by
            simp [gameRun, hck, huo, hro]
          rw [hrun]
          refine ⟨rfl, ?_, ?_⟩
          · rw [List.count_cons, List.count_cons, List.count_nil]
            simp
          · intro e he
            rcases List.mem_cons.mp he with rfl | he
            · simp [Ev.iter]
            rcases List.mem_cons.mp he with rfl | he
            · simp [Ev.iter]
            · simp at he

/-- C6: if every iteration before `k` runs cleanly, the boundary check
before iteration `k` passes, and iteration `k`'s update phase raises (or
its update succeeds and its render phase raises), then the run exits as
`Failed`, the failing iteration's update callback was invoked exactly once
(no retry), and no callback of any iteration after `k` is ever invoked. -/
theorem c6_failure_stops_loop (er ar uo ro : ℕ → Bool) (k fuel : ℕ)
    (h : ∀ j, j < k → (er j && ar j && uo j && ro j) = true)
    (hck : (er k && ar k) = true)
    (hfail : uo k = false ∨ (uo k = true ∧ ro k = false))
    (hfuel : k < fuel) :
    (gameRun er ar uo ro fuel 0).2 = some .Failed ∧
    (gameRun er ar uo ro fuel 0).1.count (Ev.update k) = 1 ∧
    ∀ e ∈ (gameRun er ar uo ro fuel 0).1, e.iter ≤ k := by
  obtain ⟨h1, h2, h3⟩ := gameRun_failed er ar uo ro k fuel 0
    (Nat.zero_le k) (fun j _ hj => h j hj) hck hfail (by omega)
  exact ⟨h1, h2, fun e he => (h3 e he).2⟩

/-- C6 witness: a run whose very first update callback raises. -/
theorem c6_failure_stops_loop_witness :
    (gameRun (fun _ => true) (fun _ => true) (fun _ => false)
      (fun _ => true) 1 0).2 = some ExitReason.Failed ∧
    (gameRun (fun _ => true) (fun _ => true) (fun _ => false)
      (fun _ => true) 1 0).1.count (Ev.update 0) = 1 :=
  have h := c6_failure_stops_loop (fun _ => true) (fun _ => true)
    (fun _ => false) (fun _ => true) 0 1
    (fun j hj => absurd hj (Nat.not_lt_zero j))
    rfl (Or.inl rfl) (by omega)
  ⟨h.1, h.2.1⟩

/-- Timed model of the platformer's FPS limiter
(`platformer_game.py` line 165: `time.sleep(max(0, 1/60 - delta_time))`).
`lastSample` is the value stored in `clock`, `now` the real time at which
the iteration calls `time.time()`, and `works` the real time each
iteration's update/render callbacks consume after that sample.  Each
iteration yields its `(delta_time, sleep)` pair; the next sample happens
after the callback work and the sleep. -/
def frameSchedule : ℚ → ℚ → List ℚ → List (ℚ × ℚ)
  | _, _, [] => []
  | lastSample, now, c :: cs =>
    let dt := now - lastSample
    let sl := max 0 (1/60 - dt)
    (dt, sl) :: frameSchedule now (now + c + sl) cs

/-- Modelled from the spec, for comparison only: step 7 of the spec's
`run` prescribes the remaining budget as
`target_frame_seconds - (now - current_instant_after_callbacks)`, sleeping
it when positive and proceeding immediately otherwise — a sleep computed
from the time `consumed` after the iteration's clock sample. -/
def specBudgetSleep (target consumed : ℚ) : ℚ :=
  max 0 (target - consumed)

/-- C5 counterexample: in a run whose first iteration samples the clock at
`1/30` (last sample `0`) and whose callbacks consume no time at all, the
code sleeps `0` — its `max(0, 1/60 - delta_time)` uses the delta measured
at the start of the iteration — while the claimed budget
`target - (now - instant_after_callbacks)` for that iteration is the full
`1/60`: the loop does not compute the remainder from the time consumed
after the clock sample. -/
theorem c5_budget_counterexample :
    frameSchedule 0 (1/30) [0] = [(1/30, 0)] ∧
    specBudgetSleep (1/60) 0 = 1/60 ∧ ((0 : ℚ) ≠ 1/60) := by
  refine ⟨?_, ?_, by norm_num⟩
  · simp [frameSchedule]
    norm_num
  · simp [specBudgetSleep]

/-- C5 amended: the platformer's limiter sleeps
`max(0, 1/60 - delta_time)` where `delta_time` is the gap between the
previous and current clock samples (which already includes the previous
iteration's callback work and sleep), not a post-callback re-sample: when
that delta is below the `1/60` target the loop sleeps exactly the
difference, when it is at or above the target the loop proceeds
immediately with no sleep, and each iteration contributes exactly one
delta/sleep pair — callbacks are never re-run to catch up. -/
theorem c5_sleep_from_delta (lastSample now : ℚ) (works : List ℚ) :
    (frameSchedule lastSample now works).length = works.length ∧
    ∀ p ∈ frameSchedule lastSample now works,
      (p.1 < 1/60 → p.2 = 1/60 - p.1) ∧
      (1/60 ≤ p.1 → p.2 = 0) ∧ 0 ≤ p.2 := by
  induction works generalizing lastSample now with
  | nil => simp [frameSchedule]
  | cons c cs ih =>
      refine ⟨?_, ?_⟩
      · have hl := fun a b => (ih a b).1
        simp [frameSchedule, hl]
      · intro p hp
        simp only [frameSchedule, List.mem_cons] at hp
        rcases hp with rfl | hp
        · refine ⟨?_, ?_, le_max_left _ _⟩
          · intro hlt
            simp only
            rw [max_eq_right (by linarith)]
          · intro hge
            simp only
            rw [max_eq_left (by linarith)]
        · exact (ih now (now + c + max 0 (1/60 - (now - lastSample)))).2 p hp

/-- C5 witness: a run starting at time `0` whose single iteration's
delta is `0`: the limiter sleeps the full `1/60` budget. -/
theorem c5_sleep_from_delta_witness :
    (((0:ℚ), (1:ℚ)/60).1 < 1/60 →
      ((0:ℚ), (1:ℚ)/60).2 = 1/60 - ((0:ℚ), (1:ℚ)/60).1) ∧
    (1/60 ≤ (((0:ℚ), (1:ℚ)/60)).1 → ((0:ℚ), (1:ℚ)/60).2 = 0) ∧
    0 ≤ (((0:ℚ), (1:ℚ)/60)).2 :=
  (c5_sleep_from_delta 0 0 [0]).2 (0, 1/60) (by
    simp [frameSchedule])

/-- Outcome of `main` in `platformer_game.py`: either engine initialization
failed (`main` returns before the loop), or the loop ran some number of
iterations, or the fuel bound of the model ran out. -/
inductive MainOutcome
  | initFailed
  | ran (iters : ℕ)
  | fuelOut
  deriving DecidableEq

/-- Iteration counting of the `main` loop (`platformer_game.py` lines
148-165): the loop runs while `game_engine.is_running()` is true at the
boundary check, one update/render pass per iteration. -/
def mainIter (engineRunning : ℕ → Bool) : ℕ → ℕ → Option ℕ
  | 0, _ => none
  | fuel + 1, i =>
    if engineRunning i then (mainIter engineRunning fuel (i + 1)).map (· + 1)
    else some 0

/-- `main` of `platformer_game.py` (lines 128-172): if
`game_engine.initialize()` fails, `main` prints and returns before any
iteration; otherwise it enters the loop.  `_target` is the frame budget
constant (1/60 in the source): the code reads no configuration and
validates nothing at entry — the parameter is never consulted, which is
exactly what the claim about configuration validation is tested against. -/
def platformerMain (_target : ℚ) (initOk : Bool) (engineRunning : ℕ → Bool)
    (fuel : ℕ) : MainOutcome :=
  if initOk then
    match mainIter engineRunning fuel 0 with
    | none => .fuelOut
    | some n => .ran n
  else .initFailed

/-- C9 counterexample: with the frame-budget constant set to `0`
(`target_frame_seconds <= 0`) and a healthy engine, `run` does not fail
fast: a full iteration executes and the run ends normally, because nothing
in the source validates the timing constant or the callbacks at entry. -/
theorem c9_validation_counterexample :
    platformerMain 0 true (fun i => decide (i < 1)) 2 = MainOutcome.ran 1 ∧
    MainOutcome.ran 1 ≠ MainOutcome.initFailed ∧ ((0 : ℚ) ≤ 0) := by
  refine ⟨?_, by simp, le_refl 0⟩
  simp [platformerMain, mainIter]

lemma mainIter_count (er : ℕ → Bool) (n : ℕ) :
    ∀ fuel i, (∀ j, i ≤ j → j < n → er j = true) → er n = false →
      i ≤ n → n - i < fuel → mainIter er fuel i = some (n - i) := by
  intro fuel
  induction fuel with
  | zero => intro i h hn hin hfuel; omega
  | succ fuel ih =>
      intro i h hn hin hfuel
      rcases Nat.lt_or_ge i n with hlt | hge
      · have hi : er i = true := h i le_rfl hlt
        have hrec := ih (i + 1) (fun j hj1 hj2 => h j (by omega) hj2) hn
          (by omega) (by omega)
        have heq : n - (i + 1) + 1 = n - i := by omega
        simp [mainIter, hi, hrec, heq]
      · have hin' : i = n := le_antisymm hin hge
        subst hin'
        simp [mainIter, hn]

/-- C9 amended: `main` performs no validation of the frame-budget constant
or the callbacks at entry — the loop's behaviour is the same for any
`target`, including non-positive ones.  The only fail-fast at entry is
engine initialization failure, which makes `main` return before any
iteration; with a healthy engine that stops after `n` iterations, exactly
`n` iterations run regardless of `target`. -/
theorem c9_no_config_validation (target : ℚ) (er : ℕ → Bool) (fuel n : ℕ)
    (h : ∀ j, j < n → er j = true) (hn : er n = false) (hfuel : n < fuel) :
    platformerMain target false er fuel = MainOutcome.initFailed ∧
    platformerMain target true er fuel = MainOutcome.ran n := by
  constructor
  · simp [platformerMain]
  · have := mainIter_count er n fuel 0 (fun j _ hj => h j hj) hn
      (Nat.zero_le n) (by omega)
    simp [platformerMain, this]

/-- C9 witness: a run with target `0` and an engine that stops after one
iteration. -/
theorem c9_no_config_validation_witness :
    platformerMain 0 false (fun i => decide (i < 1)) 2 =
      MainOutcome.initFailed ∧
    platformerMain 0 true (fun i => decide (i < 1)) 2 =
      MainOutcome.ran 1 :=
  c9_no_config_validation 0 (fun i => decide (i < 1)) 2 1
    (fun j hj => by
      have hj0 : j = 0 := by omega
      subst hj0; rfl)
    rfl (by omega)

/-- `engine.Vector3`, used opaquely by the platformer as a triple of
coordinates. -/
structure Vector3 where
  x : ℚ
  y : ℚ
  z : ℚ
  deriving DecidableEq

/-- The input queries `Player.update` makes: `is_key_down(ord('A'))`,
`is_key_down(ord('D'))`, `is_key_pressed(ord(' '))`. -/
structure InputState where
  keyA : Bool
  keyD : Bool
  spacePressed : Bool
  deriving DecidableEq

/-- `Player` of `platformer_game.py` (lines 10-17).  The render-only `size`
field is carried along untouched. -/
structure Player where
  position : Vector3
  velocity : Vector3
  size : Vector3
  on_ground : Bool
  speed : ℚ
  jump_force : ℚ
  deriving DecidableEq

/-- `Player.__init__`: origin position, zero velocity, unit size, airborne,
speed 8, jump force 12. -/
def Player.init : Player :=
  ⟨⟨0, 0, 0⟩, ⟨0, 0, 0⟩, ⟨1, 1, 1⟩, false, 8, 12⟩

/-- `Player.update` (`platformer_game.py` lines 19-44), statement by
statement: horizontal movement or `*= 0.8` friction on `velocity.x`; jump
sets `velocity.y = jump_force` and clears `on_ground`; gravity
`velocity.y -= 25.0 * delta_time`; position integration; then the ground
collision — if the new `position.y <= 0` it is clamped to `0`,
`velocity.y` is zeroed and `on_ground` is set. -/
def Player.update (p : Player) (delta_time : ℚ) (inp : InputState) : Player :=
  let vx :=
    if inp.keyA then -p.speed
    else if inp.keyD then p.speed
    else p.velocity.x * (8/10)
  let vyJump :=
    if inp.spacePressed && p.on_ground then p.jump_force else p.velocity.y
  let ogJump :=
    if inp.spacePressed && p.on_ground then false else p.on_ground
  let vy := vyJump - 25 * delta_time
  let px := p.position.x + vx * delta_time
  let py := p.position.y + vy * delta_time
  if py ≤ 0 then
    { p with
        position := ⟨px, 0, p.position.z⟩
        velocity := ⟨vx, 0, p.velocity.z⟩
        on_ground := true }
  else
    { p with
        position := ⟨px, py, p.position.z⟩
        velocity := ⟨vx, vy, p.velocity.z⟩
        on_ground := ogJump }

/-- Python's `int()`: truncation toward zero. -/
def pyInt (q : ℚ) : ℤ :=
  if 0 ≤ q then ⌊q⌋ else ⌈q⌉

/-- `PlatformerGame` state touched by `PlatformerGame.update`
(`platformer_game.py` lines 58-64): the platforms and camera offset are
consumed by rendering only and are not modelled. -/
structure PlatformerGame where
  player : Player
  score : ℤ
  game_time : ℚ
  deriving DecidableEq

/-- `PlatformerGame.update` (`platformer_game.py` lines 80-96): advance
`game_time`, update the player, raise the score to
`max(0, int(player.position.y * 10))` if higher, and respawn the player at
the origin if they fell below `y = -10`. -/
def PlatformerGame.update (g : PlatformerGame) (delta_time : ℚ)
    (inp : InputState) : PlatformerGame :=
  let game_time := g.game_time + delta_time
  let player := g.player.update delta_time inp
  let height_score := max 0 (pyInt (player.position.y * 10))
  let score := max g.score height_score
  if player.position.y < -10 then
    { player :=
        { player with position := ⟨0, 0, 0⟩, velocity := ⟨0, 0, 0⟩ },
      score := score, game_time := game_time }
  else
    { player := player, score := score, game_time := game_time }

/-- C10: after any `Player.update` (any non-negative `delta_time`, any
input), the player's `y` position is non-negative; whenever the ground
clamp fired (equivalently, the resulting `y` is `0`) the vertical velocity
is zeroed and `on_ground` is set; and consequently the respawn branch of
`PlatformerGame.update` (testing `position.y < -10`) is never taken after
the player has been updated — the game's player is exactly the updated
player. -/
theorem c10_ground_clamp_invariant (p : Player) (g : PlatformerGame)
    (dt : ℚ) (inp : InputState) (_hdt : 0 ≤ dt) :
    0 ≤ (p.update dt inp).position.y ∧
    ((p.update dt inp).position.y = 0 →
      (p.update dt inp).velocity.y = 0 ∧
      (p.update dt inp).on_ground = true) ∧
    ¬ (g.player.update dt inp).position.y < -10 ∧
    (g.update dt inp).player = g.player.update dt inp := by
  have key : ∀ q : Player, 0 ≤ (q.update dt inp).position.y ∧
      ((q.update dt inp).position.y = 0 →
        (q.update dt inp).velocity.y = 0 ∧
        (q.update dt inp).on_ground = true) := by
    intro q
    unfold Player.update
    dsimp only
    by_cases hj : (inp.spacePressed && q.on_ground) = true
    · simp only [hj, if_true]
      split
      · exact ⟨le_refl 0, fun _ => ⟨rfl, rfl⟩⟩
      · rename_i hpy
        push_neg at hpy
        exact ⟨le_of_lt hpy, fun h0 => absurd h0 (ne_of_gt hpy)⟩
    · simp only [Bool.not_eq_true] at hj
      simp only [hj, Bool.false_eq_true, if_false]
      split
      · exact ⟨le_refl 0, fun _ => ⟨rfl, rfl⟩⟩
      · rename_i hpy
        push_neg at hpy
        exact ⟨le_of_lt hpy, fun h0 => absurd h0 (ne_of_gt hpy)⟩
  have hy := (key g.player).1
  refine ⟨(key p).1, (key p).2, by linarith, ?_⟩
  unfold PlatformerGame.update
  dsimp only
  rw [if_neg (by linarith)]

/-- C10 witness: the initial player and game, `delta_time = 1/100`, no keys
held. -/
theorem c10_ground_clamp_invariant_witness :
    0 ≤ (Player.init.update (1/100) ⟨false, false, false⟩).position.y ∧
    ((⟨Player.init, 0, 0⟩ : PlatformerGame).update (1/100)
        ⟨false, false, false⟩).player =
      (⟨Player.init, 0, 0⟩ : PlatformerGame).player.update (1/100)
        ⟨false, false, false⟩ :=
  have h := c10_ground_clamp_invariant Player.init ⟨Player.init, 0, 0⟩
    (1/100) ⟨false, false, false⟩ (by norm_num)
  ⟨h.1, h.2.2.2⟩

end GameEngine
